import Mathlib

/-!
Verification of the live audio session core (src/LiveSession.tsx).

The component manages a bidirectional audio session: it streams microphone
audio to a remote model, plays back streamed audio replies with a gapless
scheduling discipline, dispatches tool-call requests issued by the model,
and guarantees resource teardown on stop or error.  The definitions below
are a shallow embedding of that code; each definition names the source
function or handler it embeds.
-/

namespace LiveSession

/-! ## Playback scheduler: start-time computation (onmessage, lines 312-343)

On each inbound audio-reply chunk the handler reads the output clock once
(`ctx.currentTime`), sets the cursor to `max(nextStartTimeRef, ctx.currentTime)`,
starts the decoded buffer at that cursor, and advances the cursor by the
buffer's duration.  A `ChunkArrival` records the clock value read when the
chunk is handled together with the decoded buffer's duration. -/

structure ChunkArrival where
  now : ℚ
  duration : ℚ
deriving DecidableEq

/-- The sequence of computed start times for a run of audio-reply chunks,
starting from cursor value `c`: start = `max c a.now`, then the cursor
advances by the chunk's duration (lines 318-342 of the source). -/
def runSched : ℚ → List ChunkArrival → List ℚ
  | _, [] => []
  | c, a :: rest => max c a.now :: runSched (max c a.now + a.duration) rest

/-- The cursor value (`nextStartTimeRef`) just before chunk `i` is handled. -/
def cursorBefore (c : ℚ) (l : List ChunkArrival) (i : Nat) : ℚ :=
  (l.take i).foldl (fun c a => max c a.now + a.duration) c

theorem runSched_length (l : List ChunkArrival) (c : ℚ) :
    (runSched c l).length = l.length := by
  induction l generalizing c with
  | nil => rfl
  | cons a rest ih => simp [runSched, ih]

theorem cursorBefore_zero (c : ℚ) (l : List ChunkArrival) : cursorBefore c l 0 = c := rfl

theorem cursorBefore_cons_succ (c : ℚ) (a : ChunkArrival) (l : List ChunkArrival) (i : Nat) :
    cursorBefore c (a :: l) (i + 1) = cursorBefore (max c a.now + a.duration) l i := by
  simp [cursorBefore, List.take_succ_cons]

theorem runSched_getD (l : List ChunkArrival) (c : ℚ) (i : Nat) (h : i < l.length) :
    (runSched c l).getD i 0 = max (cursorBefore c l i) ((l.getD i ⟨0, 0⟩).now) := by
  induction l generalizing c i with
  | nil => simp at h
  | cons a rest ih =>
    cases i with
    | zero => simp [runSched, cursorBefore]
    | succ j =>
      have hj : j < rest.length := by simpa using h
      have hr := ih (max c a.now + a.duration) j hj
      simpa [runSched, cursorBefore_cons_succ] using hr

theorem cursorBefore_succ (l : List ChunkArrival) (c : ℚ) (i : Nat) (h : i < l.length) :
    cursorBefore c l (i + 1) =
      max (cursorBefore c l i) ((l.getD i ⟨0, 0⟩).now) + (l.getD i ⟨0, 0⟩).duration := by
  induction l generalizing c i with
  | nil => simp at h
  | cons a rest ih =>
    cases i with
    | zero => simp [cursorBefore_cons_succ, cursorBefore]
    | succ j =>
      have hj : j < rest.length := by simpa using h
      simp [cursorBefore_cons_succ, ih (max c a.now + a.duration) j hj]

/-- C1: for every sequence of audio-reply chunks handled in arrival order within
one session, each chunk's computed start time equals
`max(nextStartCursor, outputClock.now())` as read when the chunk is scheduled,
consecutive start times satisfy `s(i) + d(i) <= s(i+1)`, and no start time
precedes the clock value read at schedule time. -/
theorem c1_gapless_start_times (c : ℚ) (l : List ChunkArrival) :
    (∀ i, i < l.length →
        (runSched c l).getD i 0 = max (cursorBefore c l i) ((l.getD i ⟨0, 0⟩).now)
      ∧ (l.getD i ⟨0, 0⟩).now ≤ (runSched c l).getD i 0)
  ∧ (∀ i, i + 1 < l.length →
        (runSched c l).getD i 0 + (l.getD i ⟨0, 0⟩).duration ≤ (runSched c l).getD (i + 1) 0) := by
  constructor
  · intro i h
    refine ⟨runSched_getD l c i h, ?_⟩
    rw [runSched_getD l c i h]
    exact le_max_right _ _
  · intro i h
    have hi : i < l.length := Nat.lt_of_succ_lt h
    rw [runSched_getD l c i hi, runSched_getD l c (i + 1) h, cursorBefore_succ l c i hi]
    exact le_max_left _ _

/-- Two chunks of duration 1/2 arriving back to back at clock time 0. -/
def exChunks : List ChunkArrival := [⟨0, 1/2⟩, ⟨0, 1/2⟩]

theorem c1_gapless_start_times_witness :
    (0 + 1 < exChunks.length)
  ∧ (runSched 0 exChunks).getD 0 0 + (exChunks.getD 0 ⟨0, 0⟩).duration
      ≤ (runSched 0 exChunks).getD 1 0 :=
  ⟨by decide, (c1_gapless_start_times 0 exChunks).2 0 (by decide)⟩

/-! ## Playback scheduler state: speaking signal and decode failure
(onmessage, lines 312-348, and the `ended` listener, lines 334-339)

`SchedState` carries the `isSpeaking` flag, the size of the
`scheduledSources` set and the `nextStartTimeRef` cursor. -/

/-- An inbound audio-reply chunk before decoding.  `wellFormed` records
whether the base64 payload decodes; `duration` is the decoded buffer's
duration when it does. -/
structure AudioChunk where
  wellFormed : Bool
  duration : ℚ
deriving DecidableEq

/-- Modelled from the spec: `base64ToUint8Array` and `decodeAudioData` live in
`utils/audioUtils`, which is not among the given sources.  Per the spec's error
taxonomy, decoding a malformed inbound audio chunk fails (`DecodeFailure`);
decoding a well-formed chunk yields a buffer with a known duration. -/
def decodeChunk (c : AudioChunk) : Option ℚ :=
  if c.wellFormed then some c.duration else none

structure SchedState where
  speaking : Bool
  scheduled : Nat
  cursor : ℚ
deriving DecidableEq

/-- Result of the audio branch of `onmessage`: the new state, whether an
exception escaped the handler (the decode is awaited with no surrounding
try/catch), and the start time of the newly scheduled buffer, if any. -/
structure AudioStepResult where
  state : SchedState
  escaped : Bool
  started : Option ℚ
deriving DecidableEq

/-- The audio branch of `onmessage` (lines 313-344): set `isSpeaking` to true,
raise the cursor to `max(cursor, now)`, then await the decode.  If the decode
fails the exception escapes the handler and nothing is scheduled; otherwise the
buffer is scheduled at the cursor, the cursor advances by its duration and the
buffer joins the scheduled set. -/
def handleAudioData (s : SchedState) (t : ℚ) (c : AudioChunk) : AudioStepResult :=
  let cur := max s.cursor t
  match decodeChunk c with
  | none => ⟨⟨true, s.scheduled, cur⟩, true, none⟩
  | some d => ⟨⟨true, s.scheduled + 1, cur + d⟩, false, some cur⟩

/-- The `serverContent` part of `onmessage` (lines 312-348): the audio chunk,
if present, is handled first; the `turnComplete` flag then forces
`isSpeaking` to false — but only if no decode exception cut the handler
short. -/
def handleServerContent (s : SchedState) (t : ℚ) (audio : Option AudioChunk)
    (tc : Bool) : AudioStepResult :=
  match audio with
  | none => ⟨if tc then { s with speaking := false } else s, false, none⟩
  | some c =>
    let r := handleAudioData s t c
    if r.escaped then r
    else if tc then ⟨{ r.state with speaking := false }, false, r.started⟩ else r

/-- Scheduler state at session start: not speaking, empty scheduled set. -/
def initSched : SchedState := ⟨false, 0, 0⟩

/-! ## Fine-grained scheduler events

The audio branch of `onmessage` is not atomic: line 314 sets `isSpeaking`
true and line 318 raises the cursor, then line 323 awaits the decode — other
callbacks (in particular an `ended` listener, lines 334-339) can run during
that await — and only afterwards lines 330-343 schedule the buffer, advance
the cursor and add the source to the scheduled set.  `FineEvent` records
these sub-steps separately, so arbitrary interleavings of decode awaits with
`ended` callbacks and TurnComplete handling are representable. -/

inductive FineEvent
  | audioBegin (t : ℚ)
  | audioCommit (d : ℚ)
  | audioFail
  | turnComplete
  | ended
deriving DecidableEq

/-- One fine-grained scheduler step.
`audioBegin t`: lines 314-321, `setIsSpeaking(true)` and
`cursor := max(cursor, now)`, before the decode is awaited.
`audioCommit d`: lines 330-343 after a successful decode, schedule the buffer,
advance the cursor by its duration, add the source to the scheduled set.
`audioFail`: the awaited decode rejected; the handler aborts with no further
state change (the exception escapes, see C7).
`turnComplete`: lines 346-348, `setIsSpeaking(false)`.
`ended`: the `ended` listener (lines 334-339), remove the source and set
`isSpeaking` false exactly when the set becomes empty. -/
def stepFine (s : SchedState) : FineEvent → SchedState
  | .audioBegin t => ⟨true, s.scheduled, max s.cursor t⟩
  | .audioCommit d => ⟨s.speaking, s.scheduled + 1, s.cursor + d⟩
  | .audioFail => s
  | .turnComplete => { s with speaking := false }
  | .ended =>
      { s with scheduled := s.scheduled - 1,
               speaking := if s.scheduled - 1 = 0 then false else s.speaking }

def runFine : SchedState → List FineEvent → SchedState
  | s, [] => s
  | s, e :: rest => runFine (stepFine s e) rest

/-- An uninterrupted, successfully decoding audio branch composes to exactly
the `handleAudioData` success path. -/
theorem runFine_audio_ok (s : SchedState) (t d : ℚ) :
    runFine s [FineEvent.audioBegin t, FineEvent.audioCommit d]
      = (handleAudioData s t ⟨true, d⟩).state := by
  simp [runFine, stepFine, handleAudioData, decodeChunk]

/-- A failing decode composes to exactly the `handleAudioData` failure
path. -/
theorem runFine_audio_fail (s : SchedState) (t d : ℚ) :
    runFine s [FineEvent.audioBegin t, FineEvent.audioFail]
      = (handleAudioData s t ⟨false, d⟩).state := by
  simp [runFine, stepFine, handleAudioData, decodeChunk]

/-- Recognizes traces in which every audio branch decodes successfully and
runs atomically: each `audioBegin` is immediately followed by its
`audioCommit`, with no `ended` callback or other event interleaved during the
decode await, and no stray commit or failure. -/
def atomicGood : List FineEvent → Bool
  | [] => true
  | .audioBegin _ :: rest =>
    match rest with
    | .audioCommit _ :: rest2 => atomicGood rest2
    | _ => false
  | .turnComplete :: rest => atomicGood rest
  | .ended :: rest => atomicGood rest
  | .audioCommit _ :: _ => false
  | .audioFail :: _ => false

def noTurnFine : List FineEvent → Bool
  | [] => true
  | .turnComplete :: _ => false
  | _ :: rest => noTurnFine rest

theorem runFine_append (l₁ l₂ : List FineEvent) (s : SchedState) :
    runFine s (l₁ ++ l₂) = runFine (runFine s l₁) l₂ := by
  induction l₁ generalizing s with
  | nil => rfl
  | cons e rest ih => simp [runFine, ih]

theorem runFine_speaking_iff :
    ∀ (l : List FineEvent) (s : SchedState), atomicGood l = true →
      noTurnFine l = true → (s.speaking = true ↔ s.scheduled ≠ 0) →
      ((runFine s l).speaking = true ↔ (runFine s l).scheduled ≠ 0)
  | [], _, _, _, h => h
  | .audioBegin t :: .audioCommit d :: rest, s, hg, ht, _ => by
    have hg2 : atomicGood rest = true := by simpa [atomicGood] using hg
    have ht2 : noTurnFine rest = true := by simpa [noTurnFine] using ht
    exact runFine_speaking_iff rest
      (stepFine (stepFine s (.audioBegin t)) (.audioCommit d)) hg2 ht2
      (by simp [stepFine])
  | .ended :: rest, s, hg, ht, h => by
    have hg2 : atomicGood rest = true := by simpa [atomicGood] using hg
    have ht2 : noTurnFine rest = true := by simpa [noTurnFine] using ht
    refine runFine_speaking_iff rest (stepFine s .ended) hg2 ht2 ?_
    by_cases hz : s.scheduled - 1 = 0
    · simp [stepFine, hz]
    · have hn : s.scheduled ≠ 0 := by omega
      have hs : s.speaking = true := h.mpr hn
      simp [stepFine, hz, hs]
  | .turnComplete :: rest, _, _, ht, _ => by simp [noTurnFine] at ht
  | [FineEvent.audioBegin t], _, hg, _, _ => by simp [atomicGood] at hg
  | .audioBegin t :: .audioBegin u :: rest, _, hg, _, _ => by simp [atomicGood] at hg
  | .audioBegin t :: .audioFail :: rest, _, hg, _, _ => by simp [atomicGood] at hg
  | .audioBegin t :: .turnComplete :: rest, _, hg, _, _ => by simp [atomicGood] at hg
  | .audioBegin t :: .ended :: rest, _, hg, _, _ => by simp [atomicGood] at hg
  | .audioCommit d :: rest, _, hg, _, _ => by simp [atomicGood] at hg
  | .audioFail :: rest, _, hg, _, _ => by simp [atomicGood] at hg

theorem runFine_empty_not_speaking :
    ∀ (l : List FineEvent) (s : SchedState), atomicGood l = true →
      (s.scheduled = 0 → s.speaking = false) →
      ((runFine s l).scheduled = 0 → (runFine s l).speaking = false)
  | [], _, _, h => h
  | .audioBegin t :: .audioCommit d :: rest, s, hg, _ => by
    have hg2 : atomicGood rest = true := by simpa [atomicGood] using hg
    exact runFine_empty_not_speaking rest
      (stepFine (stepFine s (.audioBegin t)) (.audioCommit d)) hg2
      (by intro hc; simp [stepFine] at hc)
  | .turnComplete :: rest, s, hg, _ => by
    have hg2 : atomicGood rest = true := by simpa [atomicGood] using hg
    exact runFine_empty_not_speaking rest (stepFine s .turnComplete) hg2
      (by intro hc; simp [stepFine])
  | .ended :: rest, s, hg, _ => by
    have hg2 : atomicGood rest = true := by simpa [atomicGood] using hg
    refine runFine_empty_not_speaking rest (stepFine s .ended) hg2 ?_
    intro hc
    simp [stepFine] at hc
    simp [stepFine, hc]
  | [FineEvent.audioBegin t], _, hg, _ => by simp [atomicGood] at hg
  | .audioBegin t :: .audioBegin u :: rest, _, hg, _ => by simp [atomicGood] at hg
  | .audioBegin t :: .audioFail :: rest, _, hg, _ => by simp [atomicGood] at hg
  | .audioBegin t :: .turnComplete :: rest, _, hg, _ => by simp [atomicGood] at hg
  | .audioBegin t :: .ended :: rest, _, hg, _ => by simp [atomicGood] at hg
  | .audioCommit d :: rest, _, hg, _ => by simp [atomicGood] at hg
  | .audioFail :: rest, _, hg, _ => by simp [atomicGood] at hg

/-- A malformed chunk: `setIsSpeaking(true)` runs, then the awaited decode
rejects, so nothing is ever scheduled; no TurnComplete anywhere. -/
def exFailTrace : List FineEvent := [FineEvent.audioBegin 0, FineEvent.audioFail]

/-- A chunk is playing; a second chunk's handler sets speaking true and
awaits its decode; during that await the first source's `ended` callback
fires on the now-momentarily-empty set (speaking := false); the decode then
completes and the second buffer is scheduled. -/
def exRaceTrace : List FineEvent :=
  [FineEvent.audioBegin 0, FineEvent.audioCommit 1, FineEvent.audioBegin 0,
   FineEvent.ended, FineEvent.audioCommit 1]

/-- C5 counterexample: the claimed iff between the speaking signal and the
non-emptiness of the scheduled set fails on the code even with no TurnComplete
event at all.  A malformed chunk leaves speaking true with an empty scheduled
set forever (`setIsSpeaking(true)` at line 314 precedes the uncaught awaited
decode at line 323); and an `ended` callback firing during a decode await
leaves speaking false with a non-empty scheduled set. -/
theorem c5_speaking_counterexample :
    (FineEvent.turnComplete ∉ exFailTrace
      ∧ (runFine initSched exFailTrace).speaking = true
      ∧ (runFine initSched exFailTrace).scheduled = 0
      ∧ ¬((runFine initSched exFailTrace).speaking = true
            ↔ (runFine initSched exFailTrace).scheduled ≠ 0))
  ∧ (FineEvent.turnComplete ∉ exRaceTrace
      ∧ (runFine initSched exRaceTrace).speaking = false
      ∧ (runFine initSched exRaceTrace).scheduled = 1
      ∧ ¬((runFine initSched exRaceTrace).speaking = true
            ↔ (runFine initSched exRaceTrace).scheduled ≠ 0)) := by
  refine ⟨⟨by decide, by decide, by decide, by decide⟩,
    ⟨by decide, by decide, by decide, by decide⟩⟩

/-- C5 amended: the speaking signal is true iff the scheduled-playback set is
non-empty over every trace in which each inbound chunk decodes successfully
and its audio branch runs atomically (no `ended` callback interleaves with a
decode await) and no TurnComplete occurs; a TurnComplete event forces speaking
to false immediately regardless of the set's contents; and over atomic
well-decoding traces an empty scheduled set never reports speaking.  When a
decode fails, speaking can stay true with an empty set; when an `ended`
callback fires during a decode await, speaking can stay false with a
non-empty set. -/
theorem c5_speaking_signal_amended (l : List FineEvent) :
    (atomicGood l = true → noTurnFine l = true →
      ((runFine initSched l).speaking = true ↔ (runFine initSched l).scheduled ≠ 0))
  ∧ (∀ l', (runFine initSched (l' ++ [FineEvent.turnComplete])).speaking = false)
  ∧ (atomicGood l = true → (runFine initSched l).scheduled = 0 →
      (runFine initSched l).speaking = false) := by
  refine ⟨fun hg ht => runFine_speaking_iff l initSched hg ht (by simp [initSched]),
    ?_, fun hg => runFine_empty_not_speaking l initSched hg (fun _ => rfl)⟩
  intro l'
  rw [runFine_append]
  simp [runFine, stepFine]

/-- A well-formed chunk handled atomically, then its `ended` callback. -/
def exGoodTrace : List FineEvent :=
  [FineEvent.audioBegin 0, FineEvent.audioCommit 1, FineEvent.ended]

theorem c5_speaking_signal_amended_witness :
    (atomicGood exGoodTrace = true ∧ noTurnFine exGoodTrace = true)
  ∧ ((runFine initSched exGoodTrace).speaking = true
      ↔ (runFine initSched exGoodTrace).scheduled ≠ 0) :=
  ⟨⟨by decide, by decide⟩,
    (c5_speaking_signal_amended exGoodTrace).1 (by decide) (by decide)⟩

/-! ## C7: decode failure on a malformed inbound chunk -/

/-- C7 counterexample: handling a malformed audio chunk in `onmessage` lets the
decode exception escape the message handler — there is no try/catch around the
awaited decode — refuting the claim that no exception escapes.  The chunk is
nonetheless dropped: nothing is scheduled and no start time is produced. -/
theorem c7_decode_failure_counterexample :
    (handleAudioData initSched 0 ⟨false, 1⟩).escaped = true
  ∧ (handleAudioData initSched 0 ⟨false, 1⟩).state.scheduled = 0
  ∧ (handleAudioData initSched 0 ⟨false, 1⟩).started = none :=
  ⟨rfl, rfl, rfl⟩

/-- C7 amended: when a chunk fails to decode, the chunk is dropped (nothing is
scheduled, no start time is produced, the cursor is not advanced past
`max(cursor, now)`), and subsequent well-formed chunks are still processed and
scheduled; but the exception escapes the message handler (the decode is awaited
with no surrounding try/catch), the speaking flag has already been set true,
and the turn-complete check of the same message is skipped. -/
theorem c7_decode_failure_amended (s : SchedState) (t : ℚ) (c : AudioChunk)
    (h : c.wellFormed = false) :
    (handleAudioData s t c).escaped = true
  ∧ (handleAudioData s t c).state.scheduled = s.scheduled
  ∧ (handleAudioData s t c).started = none
  ∧ (handleAudioData s t c).state.cursor = max s.cursor t
  ∧ (handleAudioData s t c).state.speaking = true
  ∧ (∀ tc, handleServerContent s t (some c) tc = handleAudioData s t c)
  ∧ (∀ t' c', c'.wellFormed = true →
        (handleAudioData (handleAudioData s t c).state t' c').escaped = false
      ∧ (handleAudioData (handleAudioData s t c).state t' c').state.scheduled
          = s.scheduled + 1) := by
  refine ⟨?_, ?_, ?_, ?_, ?_, ?_, ?_⟩
  · simp [handleAudioData, decodeChunk, h]
  · simp [handleAudioData, decodeChunk, h]
  · simp [handleAudioData, decodeChunk, h]
  · simp [handleAudioData, decodeChunk, h]
  · simp [handleAudioData, decodeChunk, h]
  · intro tc
    simp [handleServerContent, handleAudioData, decodeChunk, h]
  · intro t' c' hc
    constructor
    · simp [handleAudioData, decodeChunk, h, hc]
    · simp [handleAudioData, decodeChunk, h, hc]

theorem c7_decode_failure_amended_witness :
    ((⟨false, 1⟩ : AudioChunk).wellFormed = false)
  ∧ (handleAudioData initSched 0 ⟨false, 1⟩).state.speaking = true :=
  ⟨by decide, (c7_decode_failure_amended initSched 0 ⟨false, 1⟩ (by decide)).2.2.2.2.1⟩

/-! ## Code-generation tool handler (generateCodeFromVoice, lines 145-229)

The handler asks the model for a JSON file set, merges the returned files
into the stored file set keyed by filename via a JS `Map` (insertion order
preserved, `set` on an existing key overwrites in place, new keys append),
and appends one user entry and one model entry to the stored chat log. -/

structure CodeFile where
  filename : String
  content : String
  language : String
deriving DecidableEq

structure ChatEntry where
  role : String
  text : String
deriving DecidableEq

/-- The two external storage namespaces (`textgpt_code_files`,
`textgpt_code_chat`).  Modelled from the spec: `loadFromHistory` and
`saveToHistory` live in `utils/history`, which is not among the given sources;
per the spec they form an injected key-value store with a load/merge/save
contract (load returns the stored list or the given default). -/
structure Store where
  files : List CodeFile
  chat : List ChatEntry
deriving DecidableEq

/-- Whether the association list already holds the key. -/
def hasKey : List (String × CodeFile) → String → Bool
  | [], _ => false
  | p :: m, k => if p.1 = k then true else hasKey m k

/-- One `Map.set` call on an association list with JS `Map` semantics: an
existing key is overwritten in place, a new key is appended. -/
def mapSet (m : List (String × CodeFile)) (k : String) (v : CodeFile) :
    List (String × CodeFile) :=
  if hasKey m k then m.map (fun p => if p.1 = k then (k, v) else p)
  else m ++ [(k, v)]

/-- `Map.get` on the association list. -/
def lookupKey : List (String × CodeFile) → String → Option CodeFile
  | [], _ => none
  | p :: m, k => if p.1 = k then some p.2 else lookupKey m k

/-- The last file in `l` whose filename is `k` (the last write wins). -/
def lastWrite : List CodeFile → String → Option CodeFile
  | [], _ => none
  | f :: l, k =>
    match lastWrite l k with
    | some g => some g
    | none => if f.filename = k then some f else none

/-- First file in a file list with the given filename. -/
def lookupFile : List CodeFile → String → Option CodeFile
  | [], _ => none
  | f :: l, k => if f.filename = k then some f else lookupFile l k

/-- Inserting a list of files into the map, one `Map.set` per file, in order
(the `new Map(existing.map(...))` constructor and the `result.files.forEach`
loop, lines 200-203). -/
def insertFiles (m : List (String × CodeFile)) (l : List CodeFile) :
    List (String × CodeFile) :=
  l.foldl (fun m f => mapSet m f.filename f) m

/-- The merged file list (lines 200-204): existing files first, new files
merged in by filename, values read back in insertion order. -/
def mergeFiles (existing newFiles : List CodeFile) : List CodeFile :=
  (insertFiles (insertFiles [] existing) newFiles).map Prod.snd

theorem lookup_replace_ne (k q : String) (v : CodeFile) (hne : q ≠ k) :
    ∀ m : List (String × CodeFile),
      lookupKey (m.map (fun p => if p.1 = k then (k, v) else p)) q = lookupKey m q
  | [] => rfl
  | p :: m => by
    have ih := lookup_replace_ne k q v hne m
    by_cases hp : p.1 = k
    · have hkk : ¬k = q := fun h => hne h.symm
      simp [lookupKey, hp, hkk, ih]
    · by_cases hq : p.1 = q
      · simp [lookupKey, hp, hq, hne]
      · simp [lookupKey, hp, hq, ih]

theorem lookup_replace_eq (k : String) (v : CodeFile) :
    ∀ m : List (String × CodeFile), hasKey m k = true →
      lookupKey (m.map (fun p => if p.1 = k then (k, v) else p)) k = some v
  | [], h => by simp [hasKey] at h
  | p :: m, h => by
    by_cases hp : p.1 = k
    · simp [lookupKey, hp]
    · have hm : hasKey m k = true := by simpa [hasKey, hp] using h
      simp [lookupKey, hp, lookup_replace_eq k v m hm]

theorem lookup_append_single (k q : String) (v : CodeFile) :
    ∀ m : List (String × CodeFile), hasKey m k = false →
      lookupKey (m ++ [(k, v)]) q = if q = k then some v else lookupKey m q
  | [], _ => by
    by_cases hq : q = k
    · simp [lookupKey, hq]
    · have hkq : ¬k = q := fun h => hq h.symm
      simp [lookupKey, hq, hkq]
  | p :: m, h => by
    have hp : ¬p.1 = k := by
      intro he
      simp [hasKey, he] at h
    have hm : hasKey m k = false := by simpa [hasKey, hp] using h
    by_cases hq : p.1 = q
    · have hqk : ¬q = k := fun he => hp (hq.trans he)
      simp [lookupKey, hq, hqk]
    · simp [lookupKey, hq, lookup_append_single k q v m hm]

theorem mapSet_lookup (m : List (String × CodeFile)) (k q : String) (v : CodeFile) :
    lookupKey (mapSet m k v) q = if q = k then some v else lookupKey m q := by
  unfold mapSet
  by_cases ha : hasKey m k = true
  · rw [if_pos ha]
    by_cases hq : q = k
    · rw [if_pos hq, hq]
      exact lookup_replace_eq k v m ha
    · rw [if_neg hq]
      exact lookup_replace_ne k q v hq m
  · have ha' : hasKey m k = false := by simpa using ha
    rw [if_neg ha]
    exact lookup_append_single k q v m ha'

theorem insertFiles_lookup :
    ∀ (l : List CodeFile) (m : List (String × CodeFile)) (k : String),
      lookupKey (insertFiles m l) k =
        match lastWrite l k with
        | some f => some f
        | none => lookupKey m k
  | [], m, k => by simp [insertFiles, lastWrite]
  | f :: l, m, k => by
    have ih := insertFiles_lookup l (mapSet m f.filename f) k
    simp only [insertFiles, List.foldl_cons] at ih ⊢
    rw [ih, mapSet_lookup]
    cases hlw : lastWrite l k with
    | some g => simp [lastWrite, hlw]
    | none =>
      by_cases hk : k = f.filename
      · subst hk
        simp [lastWrite, hlw]
      · have hfk : ¬f.filename = k := fun h => hk h.symm
        simp [lastWrite, hlw, hk, hfk]

theorem replace_keys (k : String) (v : CodeFile) :
    ∀ m : List (String × CodeFile),
      (m.map (fun p => if p.1 = k then (k, v) else p)).map Prod.fst = m.map Prod.fst
  | [] => rfl
  | p :: m => by
    by_cases hp : p.1 = k <;> simp [hp, replace_keys k v m]

theorem hasKey_of_mem :
    ∀ (m : List (String × CodeFile)) (q : String × CodeFile), q ∈ m → hasKey m q.1 = true
  | p :: m, q, hq => by
    rcases List.mem_cons.mp hq with rfl | hmem
    · simp [hasKey]
    · by_cases hp : p.1 = q.1
      · simp [hasKey, hp]
      · simpa [hasKey, hp] using hasKey_of_mem m q hmem

theorem mapSet_keys_nodup (m : List (String × CodeFile)) (k : String) (v : CodeFile)
    (h : (m.map Prod.fst).Nodup) : ((mapSet m k v).map Prod.fst).Nodup := by
  unfold mapSet
  by_cases ha : hasKey m k = true
  · rw [if_pos ha, replace_keys]
    exact h
  · rw [if_neg ha]
    have hk : k ∉ m.map Prod.fst := by
      intro hmem
      rcases List.mem_map.mp hmem with ⟨p, hp, hpk⟩
      have := hasKey_of_mem m p hp
      rw [hpk] at this
      exact ha this
    simp only [List.map_append, List.map_cons, List.map_nil]
    rw [List.nodup_append]
    exact ⟨h, List.nodup_singleton k, by simpa [List.disjoint_singleton] using hk⟩

theorem insertFiles_keys_nodup :
    ∀ (l : List CodeFile) (m : List (String × CodeFile)),
      (m.map Prod.fst).Nodup → ((insertFiles m l).map Prod.fst).Nodup
  | [], _, h => h
  | f :: l, m, h =>
    insertFiles_keys_nodup l (mapSet m f.filename f) (mapSet_keys_nodup m f.filename f h)

/-- Every map entry is keyed by its file's filename. -/
def KeyInv (m : List (String × CodeFile)) : Prop := ∀ p ∈ m, p.1 = p.2.filename

theorem mapSet_keyInv (m : List (String × CodeFile)) (k : String) (v : CodeFile)
    (hv : v.filename = k) (h : KeyInv m) : KeyInv (mapSet m k v) := by
  unfold mapSet
  split
  · intro p hp
    rcases List.mem_map.mp hp with ⟨q, hq, rfl⟩
    by_cases hqk : q.1 = k
    · simp [hqk, hv]
    · simpa [hqk] using h q hq
  · intro p hp
    rcases List.mem_append.mp hp with hin | hin
    · exact h p hin
    · simp at hin
      simp [hin, hv]

theorem insertFiles_keyInv :
    ∀ (l : List CodeFile) (m : List (String × CodeFile)),
      KeyInv m → KeyInv (insertFiles m l)
  | [], _, h => h
  | f :: l, m, h =>
    insertFiles_keyInv l (mapSet m f.filename f) (mapSet_keyInv m f.filename f rfl h)

theorem lookupFile_values :
    ∀ m : List (String × CodeFile), KeyInv m →
      ∀ k, lookupFile (m.map Prod.snd) k = lookupKey m k
  | [], _, _ => rfl
  | p :: m, h, k => by
    have hp := h p (by simp)
    have ih := lookupFile_values m (fun q hq => h q (by simp [hq])) k
    by_cases hq : p.1 = k
    · simp [lookupFile, lookupKey, ← hp, hq]
    · simp [lookupFile, lookupKey, ← hp, hq, ih]

theorem values_filenames :
    ∀ m : List (String × CodeFile), KeyInv m →
      (m.map Prod.snd).map CodeFile.filename = m.map Prod.fst
  | [], _ => rfl
  | p :: m, h => by
    have hp := h p (by simp)
    simp [values_filenames m (fun q hq => h q (by simp [hq])), ← hp]

theorem mergeFiles_lookup (existing newFiles : List CodeFile) (k : String) :
    lookupFile (mergeFiles existing newFiles) k =
      match lastWrite newFiles k with
      | some f => some f
      | none => lastWrite existing k := by
  have hinv : KeyInv (insertFiles (insertFiles [] existing) newFiles) :=
    insertFiles_keyInv newFiles _ (insertFiles_keyInv existing [] (by intro p hp; simp at hp))
  unfold mergeFiles
  rw [lookupFile_values _ hinv, insertFiles_lookup, insertFiles_lookup]
  cases lastWrite newFiles k with
  | some f => rfl
  | none =>
    cases lastWrite existing k with
    | some g => rfl
    | none => rfl

theorem mergeFiles_nodup (existing newFiles : List CodeFile) :
    ((mergeFiles existing newFiles).map CodeFile.filename).Nodup := by
  have hinv : KeyInv (insertFiles (insertFiles [] existing) newFiles) :=
    insertFiles_keyInv newFiles _ (insertFiles_keyInv existing [] (by intro p hp; simp at hp))
  unfold mergeFiles
  rw [values_filenames _ hinv]
  exact insertFiles_keys_nodup newFiles _ (insertFiles_keys_nodup existing [] (by simp))

/-- Outcome of the code-generation model call as seen by
`generateCodeFromVoice`: the call may throw (caught by the handler's
try/catch), return an empty text, return text that fails `JSON.parse`, or
parse to an object whose `files` field is an array or not. -/
inductive ModelResponse
  | failure
  | empty
  | unparsable
  | parsed (files : Option (List CodeFile)) (explanation : String)
deriving DecidableEq

/-- `generateCodeFromVoice` (lines 145-229): on success it merges the returned
files into the stored file set by filename and appends one user and one model
entry to the stored chat; every failure path returns a failure text and leaves
both storage namespaces untouched. -/
def generateCodeFromVoice (desc : String) (resp : ModelResponse) (st : Store) :
    String × Store :=
  match resp with
  | .failure => ("Error occurred while generating code.", st)
  | .empty => ("Failed to generate code.", st)
  | .unparsable => ("Error occurred while generating code.", st)
  | .parsed none _ => ("Code generation failed format check.", st)
  | .parsed (some fs) expl =>
    let updatedFiles := mergeFiles st.files fs
    let updatedChat := st.chat ++
      [⟨"user", desc⟩,
       ⟨"model", if expl = "" then "Code generated via Voice Mode." else expl⟩]
    (s!"Code generated successfully for \"{desc}\". Files saved to Code Studio.",
     ⟨updatedFiles, updatedChat⟩)

/-- C9: when the code-generation handler succeeds, it merges the generated
files into the stored file set keyed by filename with last-write-wins
overwrite semantics — a lookup in the merged set finds the latest generated
file with that name, falling back to the latest stored one — the merged set
holds no duplicate filenames, and exactly one user entry and one model entry
are appended to the stored chat log. -/
theorem c9_code_merge_semantics (desc expl : String) (files : List CodeFile) (st : Store) :
    (generateCodeFromVoice desc (ModelResponse.parsed (some files) expl) st).2.files
      = mergeFiles st.files files
  ∧ (∀ k, lookupFile (generateCodeFromVoice desc (ModelResponse.parsed (some files) expl) st).2.files k
      = match lastWrite files k with
        | some f => some f
        | none => lastWrite st.files k)
  ∧ (((generateCodeFromVoice desc (ModelResponse.parsed (some files) expl) st).2.files.map
        CodeFile.filename).Nodup)
  ∧ (generateCodeFromVoice desc (ModelResponse.parsed (some files) expl) st).2.chat
      = st.chat ++
        [⟨"user", desc⟩,
         ⟨"model", if expl = "" then "Code generated via Voice Mode." else expl⟩] := by
  refine ⟨rfl, ?_, ?_, rfl⟩
  · intro k
    exact mergeFiles_lookup st.files files k
  · exact mergeFiles_nodup st.files files

/-- C10: the code-generation handler is atomic on failure — if the model call
throws, returns an empty response, returns unparsable text, or the parsed
result has no files array, then neither the files store nor the chat store is
written, and the handler returns a failure text instead of raising. -/
theorem c10_codegen_failure_atomicity (desc expl : String) (st : Store) :
    generateCodeFromVoice desc ModelResponse.empty st = ("Failed to generate code.", st)
  ∧ generateCodeFromVoice desc ModelResponse.unparsable st
      = ("Error occurred while generating code.", st)
  ∧ generateCodeFromVoice desc (ModelResponse.parsed none expl) st
      = ("Code generation failed format check.", st)
  ∧ generateCodeFromVoice desc ModelResponse.failure st
      = ("Error occurred while generating code.", st) :=
  ⟨rfl, rfl, rfl, rfl⟩

/-! ## Tool call dispatcher (onmessage, lines 285-310) -/

/-- Outcome of the image-generation model call as seen by
`generateImageFromVoice`: an image part is found, no image part is found, or
the call throws (caught by the handler's try/catch). -/
inductive ImageOutcome
  | ok
  | noImage
  | failure
deriving DecidableEq

/-- `generateImageFromVoice` (lines 107-142): always returns a result text;
its try/catch converts any thrown error into a failure text.  (Its display
side effect, `setLiveImage`, is a UI concern outside the dispatcher's
contract.) -/
def generateImageFromVoice (prompt : String) (o : ImageOutcome) : String :=
  match o with
  | .ok => "Image generated and displayed successfully."
  | .noImage => "Failed to generate image."
  | .failure => "Error occurred while generating image."

/-- One tool-call request from the model: `{id, name, arguments}`. -/
structure FunctionCall where
  id : String
  name : String
  args : List (String × String)
deriving DecidableEq

def argOf (fc : FunctionCall) (k : String) : String :=
  match fc.args.find? (fun p => p.1 = k) with
  | some p => p.2
  | none => ""

/-- One `sendToolResponse` payload (lines 300-308): the function name, the
request id echoed verbatim, and the result text. -/
structure ToolResponse where
  name : String
  id : String
  result : String
deriving DecidableEq

/-- Per-call handler outcome (the environment the handlers run against). -/
structure ToolOutcome where
  image : ImageOutcome
  code : ModelResponse
deriving DecidableEq

/-- The body of the tool-call loop (lines 288-297): result defaults to
"Tool execution failed"; a registered name runs its handler (awaited), any
other name leaves the default. -/
def dispatchOne (o : ToolOutcome) (st : Store) (fc : FunctionCall) : String × Store :=
  if fc.name = "generate_image" then
    (generateImageFromVoice (argOf fc "prompt") o.image, st)
  else if fc.name = "generate_code" then
    generateCodeFromVoice (argOf fc "description") o.code st
  else ("Tool execution failed", st)

/-- The whole `msg.toolCall` loop (lines 287-310): each call is handled in
order (threading the storage state) and exactly one tool response per call is
queued, echoing the call's id. -/
def runToolCalls (env : FunctionCall → ToolOutcome) :
    Store → List FunctionCall → Store × List ToolResponse
  | st, [] => (st, [])
  | st, fc :: rest =>
    let r := dispatchOne (env fc) st fc
    let p := runToolCalls env r.2 rest
    (p.1, ⟨fc.name, fc.id, r.1⟩ :: p.2)

theorem runToolCalls_ids (env : FunctionCall → ToolOutcome) :
    ∀ (st : Store) (fcs : List FunctionCall),
      (runToolCalls env st fcs).2.map ToolResponse.id = fcs.map FunctionCall.id
  | _, [] => rfl
  | st, fc :: rest => by
    simp [runToolCalls, runToolCalls_ids env _ rest]

theorem countP_of_map_ids (x : String) :
    ∀ (resps : List ToolResponse) (ids : List String),
      resps.map ToolResponse.id = ids →
      resps.countP (fun r => r.id = x) = ids.count x
  | [], [], _ => rfl
  | r :: resps, ids, h => by
    cases ids with
    | nil => simp at h
    | cons i ids =>
      simp only [List.map_cons, List.cons.injEq] at h
      by_cases hr : r.id = x
      · simp [List.countP_cons, List.count_cons, hr, ← h.1,
          countP_of_map_ids x resps ids h.2]
      · have hix : ¬i = x := h.1 ▸ hr
        simp [List.countP_cons, List.count_cons, hr, hix,
          countP_of_map_ids x resps ids h.2]

/-- C2: for every tool-call request handled by the dispatcher, exactly one
tool-result send is queued, echoing the request's id verbatim — whatever the
handler outcomes are, including failing ones (a handler failure is converted
into a failure result text, never a suppressed send). -/
theorem c2_tool_result_correlation (env : FunctionCall → ToolOutcome) (st : Store)
    (fcs : List FunctionCall) :
    ((runToolCalls env st fcs).2.map ToolResponse.id = fcs.map FunctionCall.id)
  ∧ ((fcs.map FunctionCall.id).Nodup →
      ∀ fc ∈ fcs,
        (runToolCalls env st fcs).2.countP (fun r => r.id = fc.id) = 1) := by
  refine ⟨runToolCalls_ids env st fcs, ?_⟩
  intro hnd fc hfc
  rw [countP_of_map_ids fc.id _ _ (runToolCalls_ids env st fcs)]
  exact List.count_eq_one_of_mem hnd (List.mem_map_of_mem FunctionCall.id hfc)

/-- An environment in which every handler fails. -/
def envFail : FunctionCall → ToolOutcome :=
  fun _ => ⟨ImageOutcome.failure, ModelResponse.failure⟩

def emptyStore : Store := ⟨[], []⟩

def exCalls : List FunctionCall :=
  [⟨"x1", "generate_image", [("prompt", "a cat")]⟩,
   ⟨"x2", "generate_code", [("description", "a site")]⟩]

theorem c2_tool_result_correlation_witness :
    ((exCalls.map FunctionCall.id).Nodup ∧ exCalls.getD 0 ⟨"", "", []⟩ ∈ exCalls)
  ∧ (runToolCalls envFail emptyStore exCalls).2.countP
      (fun r => r.id = (exCalls.getD 0 ⟨"", "", []⟩).id) = 1 :=
  ⟨⟨by decide, by decide⟩,
    (c2_tool_result_correlation envFail emptyStore exCalls).2 (by decide) _ (by decide)⟩

/-- C6: a tool-call request whose name is not in the fixed registry (neither
generate_image nor generate_code) yields a result whose text reports tool
execution failure, sent back with the request's id; the dispatcher is a total
function and never raises. -/
theorem c6_unknown_tool_failure_text (env : FunctionCall → ToolOutcome) (st : Store)
    (fc : FunctionCall) (h1 : fc.name ≠ "generate_image")
    (h2 : fc.name ≠ "generate_code") :
    dispatchOne (env fc) st fc = ("Tool execution failed", st)
  ∧ (runToolCalls env st [fc]).2 = [⟨fc.name, fc.id, "Tool execution failed"⟩] := by
  constructor
  · simp [dispatchOne, h1, h2]
  · simp [runToolCalls, dispatchOne, h1, h2]

theorem c6_unknown_tool_failure_text_witness :
    (("generate_video" : String) ≠ "generate_image"
      ∧ ("generate_video" : String) ≠ "generate_code")
  ∧ (runToolCalls envFail emptyStore [⟨"x9", "generate_video", []⟩]).2
      = [⟨"generate_video", "x9", "Tool execution failed"⟩] :=
  ⟨⟨by decide, by decide⟩,
    (c6_unknown_tool_failure_text envFail emptyStore ⟨"x9", "generate_video", []⟩
      (by decide) (by decide)).2⟩

/-! ## Execution order inside one onmessage invocation (lines 285-348)

The handler is an async function: the for-loop over `msg.toolCall.functionCalls`
awaits each handler before the next iteration, and the audio branch runs only
after the loop has finished.  `MsgAction` records the observable steps of one
invocation in execution order: a handler invocation, the corresponding handler
completion (the `await` returning), the queuing of the result send
(`sessionPromise.then(...)`), and the handoff of the audio chunk to the
playback scheduler. -/

inductive MsgAction
  | invokeHandler (id : String)
  | completeHandler (id : String)
  | sendResult (id : String)
  | scheduleChunk
deriving DecidableEq

/-- One inbound server message: tool calls, an optional audio chunk, and the
turn-complete flag. -/
structure InboundMsg where
  toolCalls : List FunctionCall
  audioData : Option AudioChunk
  turnComplete : Bool
deriving DecidableEq

/-- The tool-call loop's actions: each call's handler is invoked and awaited
to completion, then its result send is queued, before the next call starts
(lines 288-309). -/
def toolCallActions : List FunctionCall → List MsgAction
  | [] => []
  | fc :: rest =>
    MsgAction.invokeHandler fc.id :: MsgAction.completeHandler fc.id ::
      MsgAction.sendResult fc.id :: toolCallActions rest

/-- The actions of one `onmessage` invocation in execution order: the whole
tool-call loop first, then — if an audio chunk is present — its handoff to the
playback scheduler. -/
def onmessageActions (m : InboundMsg) : List MsgAction :=
  toolCallActions m.toolCalls ++
    (match m.audioData with
     | some _ => [MsgAction.scheduleChunk]
     | none => [])

/-- A message carrying two tool calls and an audio chunk. -/
def exMsg : InboundMsg :=
  ⟨[⟨"x1", "generate_image", [("prompt", "a cat")]⟩,
    ⟨"x2", "generate_code", [("description", "a site")]⟩],
   some ⟨true, 1⟩, false⟩

/-- C3 counterexample: in a message carrying two tool calls and an audio
chunk, the first handler completes before the second handler is even invoked
(handlers do not run concurrently with each other), and the audio chunk is
handed to the scheduler only after a handler has completed (handler execution
delays chunk delivery) — refuting the claim that dispatch is asynchronous and
does not delay the chunk. -/
theorem c3_dispatch_counterexample :
    onmessageActions exMsg =
      [MsgAction.invokeHandler "x1", MsgAction.completeHandler "x1",
       MsgAction.sendResult "x1", MsgAction.invokeHandler "x2",
       MsgAction.completeHandler "x2", MsgAction.sendResult "x2",
       MsgAction.scheduleChunk]
  ∧ MsgAction.completeHandler "x1" ∈
      (onmessageActions exMsg).takeWhile (fun a => a ≠ MsgAction.invokeHandler "x2")
  ∧ MsgAction.completeHandler "x1" ∈
      (onmessageActions exMsg).takeWhile (fun a => a ≠ MsgAction.scheduleChunk) :=
  ⟨by decide, by decide, by decide⟩

theorem scheduleChunk_not_in_toolCallActions :
    ∀ l : List FunctionCall, MsgAction.scheduleChunk ∉ toolCallActions l
  | [] => by simp [toolCallActions]
  | fc :: rest => by
    simp [toolCallActions]
    exact scheduleChunk_not_in_toolCallActions rest

theorem completeHandler_in_toolCallActions :
    ∀ (l : List FunctionCall) (fc : FunctionCall), fc ∈ l →
      MsgAction.completeHandler fc.id ∈ toolCallActions l
  | g :: rest, fc, h => by
    rcases List.mem_cons.mp h with rfl | hmem
    · simp [toolCallActions]
    · simp only [toolCallActions]
      exact List.mem_cons_of_mem _ (List.mem_cons_of_mem _ (List.mem_cons_of_mem _
        (completeHandler_in_toolCallActions rest fc hmem)))

/-- C3 amended: when one inbound message carries tool-call requests and an
audio-reply chunk, every tool-call handler is invoked, awaited to completion
and its result send queued, one call at a time in order, before the chunk is
handed to the playback scheduler: the chunk handoff is the single final action
of the invocation, strictly after every handler completion, so handler
execution delays chunk delivery and handlers within one message do not run
concurrently with each other. -/
theorem c3_sequential_dispatch (m : InboundMsg) (h : m.audioData.isSome = true) :
    onmessageActions m = toolCallActions m.toolCalls ++ [MsgAction.scheduleChunk]
  ∧ (onmessageActions m).getLast? = some MsgAction.scheduleChunk
  ∧ MsgAction.scheduleChunk ∉ toolCallActions m.toolCalls
  ∧ (∀ fc ∈ m.toolCalls,
      MsgAction.completeHandler fc.id ∈ toolCallActions m.toolCalls) := by
  have heq : onmessageActions m = toolCallActions m.toolCalls ++ [MsgAction.scheduleChunk] := by
    unfold onmessageActions
    cases ha : m.audioData with
    | some c => rfl
    | none => rw [ha] at h; simp at h
  refine ⟨heq, ?_, scheduleChunk_not_in_toolCallActions m.toolCalls,
    fun fc hfc => completeHandler_in_toolCallActions m.toolCalls fc hfc⟩
  rw [heq]
  simp

theorem c3_sequential_dispatch_witness :
    exMsg.audioData.isSome = true
  ∧ (onmessageActions exMsg).getLast? = some MsgAction.scheduleChunk :=
  ⟨by decide, (c3_sequential_dispatch exMsg (by decide)).2.1⟩

/-! ## Session controller: teardown (cleanup, lines 69-104; callbacks,
lines 350-359; startSession failure branch, lines 364-368)

`SessState` mirrors the refs and React state of the component: each owned
handle is a Bool recording whether the ref currently holds a value, the
scheduled set is its size, and the status is the `status` state.  `cleanup`
guards every release step with an `if (ref.current)` check and nulls the ref
afterwards — except `animRef`, which is cancelled but never nulled. -/

inductive Status
  | disconnected
  | connecting
  | connected
  | error
deriving DecidableEq

structure SessState where
  sessionOpen : Bool
  processorOn : Bool
  sourceOn : Bool
  streamOn : Bool
  inputCtxOpen : Bool
  audioCtxOpen : Bool
  animReq : Bool
  scheduled : Nat
  isConnected : Bool
  isSpeaking : Bool
  status : Status
  hasLiveImage : Bool
  processingTool : Bool
deriving DecidableEq

/-- One release side effect of `cleanup`, in the order the code performs
them. -/
inductive Release
  | closeSession
  | disconnectProcessor
  | disconnectSource
  | stopStreamTracks
  | closeInputCtx
  | closeAudioCtx
  | cancelAnim
  | stopBuffer
deriving DecidableEq

/-- The release actions one `cleanup` call performs, in code order: each
handle is released only if present, every scheduled source is stopped. -/
def cleanupReleases (s : SessState) : List Release :=
  (if s.sessionOpen then [Release.closeSession] else [])
  ++ (if s.processorOn then [Release.disconnectProcessor] else [])
  ++ (if s.sourceOn then [Release.disconnectSource] else [])
  ++ (if s.streamOn then [Release.stopStreamTracks] else [])
  ++ (if s.inputCtxOpen then [Release.closeInputCtx] else [])
  ++ (if s.audioCtxOpen then [Release.closeAudioCtx] else [])
  ++ (if s.animReq then [Release.cancelAnim] else [])
  ++ List.replicate s.scheduled Release.stopBuffer

/-- The state after `cleanup`: every ref nulled, the scheduled set cleared,
status `disconnected`, flags reset.  `animRef` keeps its (now cancelled)
value: the code never nulls it. -/
def cleanupState (s : SessState) : SessState where
  sessionOpen := false
  processorOn := false
  sourceOn := false
  streamOn := false
  inputCtxOpen := false
  audioCtxOpen := false
  animReq := s.animReq
  scheduled := 0
  isConnected := false
  isSpeaking := false
  status := Status.disconnected
  hasLiveImage := false
  processingTool := false

/-- `cleanup` (lines 69-104), the body of `stop()`. -/
def cleanup (s : SessState) : SessState × List Release :=
  (cleanupState s, cleanupReleases s)

/-- `n` consecutive `cleanup` calls, collecting all release actions. -/
def cleanupN : SessState → Nat → SessState × List Release
  | s, 0 => (s, [])
  | s, n + 1 =>
    ((cleanupN (cleanupState s) n).1,
      cleanupReleases s ++ (cleanupN (cleanupState s) n).2)

/-- The component's initial state: nothing acquired, disconnected. -/
def initSess : SessState :=
  ⟨false, false, false, false, false, false, false, 0, false, false,
   Status.disconnected, false, false⟩

theorem cleanupState_idem (s : SessState) :
    cleanupState (cleanupState s) = cleanupState s := rfl

theorem cleanupReleases_clean (s : SessState) :
    cleanupReleases (cleanupState s) = if s.animReq then [Release.cancelAnim] else [] := by
  cases h : s.animReq <;> simp [cleanupReleases, cleanupState, h]

theorem cleanupN_state (s : SessState) :
    ∀ n : Nat, 1 ≤ n → (cleanupN s n).1 = cleanupState s
  | 1, _ => rfl
  | n + 2, _ => by
    have ih := cleanupN_state (cleanupState s) (n + 1) (by omega)
    simp only [cleanupN] at ih ⊢
    rw [ih, cleanupState_idem]

theorem cleanupN_clean_releases (s : SessState) :
    ∀ n : Nat, (cleanupN (cleanupState s) n).2
      = List.replicate (if s.animReq then n else 0) Release.cancelAnim
  | 0 => by cases s.animReq <;> simp [cleanupN]
  | n + 1 => by
    have ih := cleanupN_clean_releases s n
    simp only [cleanupN, cleanupState_idem]
    rw [ih, cleanupReleases_clean]
    cases h : s.animReq <;> simp [List.replicate_succ]

theorem count_replicate_ne (a b : Release) (n : Nat) (h : a ≠ b) :
    (List.replicate n b).count a = 0 := by
  induction n with
  | zero => rfl
  | succ k ih => simp [List.replicate_succ, List.count_cons, ih, h]

theorem cleanupN_count (s : SessState) (n : Nat) (hn : 1 ≤ n) (a : Release)
    (ha : a ≠ Release.cancelAnim) :
    (cleanupN s n).2.count a = (cleanupReleases s).count a := by
  cases n with
  | zero => omega
  | succ k =>
    simp only [cleanupN]
    rw [List.count_append, cleanupN_clean_releases s k]
    rw [count_replicate_ne a Release.cancelAnim _ ha]
    simp

theorem count_singleton_if (b : Bool) (x a : Release) :
    ((if b then [x] else []) : List Release).count a
      = if b ∧ a = x then 1 else 0 := by
  cases b with
  | false => simp
  | true =>
    by_cases h : a = x
    · simp [h, List.count_cons]
    · simp [h, List.count_cons, List.count_nil]

theorem count_cleanupReleases (s : SessState) (a : Release) :
    (cleanupReleases s).count a =
      (if s.sessionOpen ∧ a = Release.closeSession then 1 else 0)
    + (if s.processorOn ∧ a = Release.disconnectProcessor then 1 else 0)
    + (if s.sourceOn ∧ a = Release.disconnectSource then 1 else 0)
    + (if s.streamOn ∧ a = Release.stopStreamTracks then 1 else 0)
    + (if s.inputCtxOpen ∧ a = Release.closeInputCtx then 1 else 0)
    + (if s.audioCtxOpen ∧ a = Release.closeAudioCtx then 1 else 0)
    + (if s.animReq ∧ a = Release.cancelAnim then 1 else 0)
    + (if a = Release.stopBuffer then s.scheduled else 0) := by
  unfold cleanupReleases
  rw [List.count_append, List.count_append, List.count_append, List.count_append,
    List.count_append, List.count_append, List.count_append]
  rw [count_singleton_if, count_singleton_if, count_singleton_if, count_singleton_if,
    count_singleton_if, count_singleton_if, count_singleton_if]
  by_cases h : a = Release.stopBuffer
  · simp [h, List.count_replicate]
  · rw [count_replicate_ne a Release.stopBuffer _ h, if_neg h]

/-- C4: teardown is idempotent — any number `n ≥ 1` of `stop()` calls from any
prior state yields the very state one `cleanup` yields, with status
Disconnected; across all `n` calls each owned resource (transport session,
processor, source node, capture stream, both audio contexts, the scheduled
playback buffers) is released exactly once when held and zero times when not,
every release step being guarded by its own presence check; and `stop()` from
the pristine Disconnected state is a no-op performing no release at all. -/
theorem c4_stop_idempotent (s : SessState) (n : Nat) (hn : 1 ≤ n) :
    (cleanupN s n).1 = cleanupState s
  ∧ (cleanupN s n).1.status = Status.disconnected
  ∧ (cleanupN s n).2.count Release.closeSession = (if s.sessionOpen then 1 else 0)
  ∧ (cleanupN s n).2.count Release.disconnectProcessor = (if s.processorOn then 1 else 0)
  ∧ (cleanupN s n).2.count Release.disconnectSource = (if s.sourceOn then 1 else 0)
  ∧ (cleanupN s n).2.count Release.stopStreamTracks = (if s.streamOn then 1 else 0)
  ∧ (cleanupN s n).2.count Release.closeInputCtx = (if s.inputCtxOpen then 1 else 0)
  ∧ (cleanupN s n).2.count Release.closeAudioCtx = (if s.audioCtxOpen then 1 else 0)
  ∧ (cleanupN s n).2.count Release.stopBuffer = s.scheduled
  ∧ cleanup initSess = (initSess, []) := by
  refine ⟨cleanupN_state s n hn, by rw [cleanupN_state s n hn]; rfl, ?_, ?_, ?_, ?_, ?_, ?_, ?_, rfl⟩
  all_goals rw [cleanupN_count s n hn _ (by decide), count_cleanupReleases]
  all_goals simp

theorem c4_stop_idempotent_witness :
    (1 ≤ 3)
  ∧ (cleanupN initSess 3).1.status = Status.disconnected :=
  ⟨by decide, (c4_stop_idempotent initSess 3 (by decide)).2.1⟩

/-! ## C8: transport-driven teardown and start failure -/

/-- The `onclose` callback (lines 350-353): runs `cleanup`, which leaves
status Disconnected. -/
def oncloseStep (s : SessState) : SessState × List Release := cleanup s

/-- The `onerror` callback (lines 354-358): runs `cleanup`, then sets status
to Error. -/
def onerrorStep (s : SessState) : SessState × List Release :=
  ({ (cleanup s).1 with status := Status.error }, (cleanup s).2)

/-- The failure branch of `startSession` (lines 364-368): any acquisition
failure (capture device or transport open) runs `cleanup`, then sets status to
Error, before `startSession` returns. -/
def startSessionFailure (s : SessState) : SessState × List Release :=
  ({ (cleanup s).1 with status := Status.error }, (cleanup s).2)

/-- All owned resources are released: no handle held, no scheduled buffer. -/
def allReleased (s : SessState) : Prop :=
  s.sessionOpen = false ∧ s.processorOn = false ∧ s.sourceOn = false
  ∧ s.streamOn = false ∧ s.inputCtxOpen = false ∧ s.audioCtxOpen = false
  ∧ s.scheduled = 0

/-- C8: a SessionClosed inbound event forces full teardown and final state
Disconnected; a SessionError inbound event forces full teardown and final
state Error; and an acquisition failure in start() runs full teardown and
leaves the session in state Error — from any prior state, whether or not the
caller ever called stop(). -/
theorem c8_transport_teardown (s : SessState) :
    (oncloseStep s).1.status = Status.disconnected ∧ allReleased (oncloseStep s).1
  ∧ (onerrorStep s).1.status = Status.error ∧ allReleased (onerrorStep s).1
  ∧ (startSessionFailure s).1.status = Status.error
  ∧ allReleased (startSessionFailure s).1 := by
  refine ⟨rfl, ?_, rfl, ?_, rfl, ?_⟩ <;>
    simp [oncloseStep, onerrorStep, startSessionFailure, cleanup, cleanupState, allReleased]

end LiveSession
